import Mathlib

/-!
Verification of the dnscat2 client against its specification.

The repository source under `src/client/dnscat.c` contains the entry
point: the debug block at the top of `main`, the `--dns` option parser
(`create_dns_driver`), and the driver construction
(`create_dns_driver_internal`).  These are embedded directly from the C
source.  The tunnel core (codec, session, controller) is referenced from
this file but its implementation is not part of the repository snapshot,
so those components are modelled from the specification text; each such
definition carries a doc comment starting `Modelled from the spec:`.
-/

namespace Dnscat

/-! ## Embedding of `create_dns_driver` / `create_dns_driver_internal`
    (src/client/dnscat.c lines 136-229) -/

/-- `DEFAULT_TYPES` macro (driver_dns.h); the exact string is irrelevant
to the claims, only that it is the compiled-in default. -/
def DEFAULT_TYPES : String := "TXT,CNAME,MX"

/-- The arguments `driver_dns_create` is invoked with at line 182. -/
structure DnsDriverArgs where
  domain : Option String
  host   : String
  port   : Nat
  type   : String
  server : String
  deriving DecidableEq, Repr

/-- Outcome of driver creation: either `driver_dns_create` is reached
with concrete arguments, or the process exits fatally first.
`warned` records the big printf WARNING block at lines 138-161. -/
inductive DriverResult where
  | created (warned : Bool) (args : DnsDriverArgs)
  | fatalExit (code : Nat) (msg : String)
  deriving DecidableEq, Repr

/-- C `atoi`: skip leading spaces/tabs, optional sign, then decimal
digits; no digits gives 0. -/
def atoiDigits : List Char → Nat → Nat
  | [], acc => acc
  | c :: rest, acc =>
      if c.isDigit then atoiDigits rest (acc * 10 + (c.toNat - 48)) else acc

def atoi (s : String) : Int :=
  let cs := s.toList.dropWhile (fun c => c = ' ' ∨ c = '\t' ∨ c = '\n')
  match cs with
  | '-' :: rest => - (atoiDigits rest 0 : Int)
  | '+' :: rest => (atoiDigits rest 0 : Int)
  | rest => (atoiDigits rest 0 : Int)

/-- Conversion of the `atoi` result to the C `uint16_t` `port` field. -/
def toUint16 (n : Int) : Nat := (n % 65536).toNat

/-- `strtok(options, ":,")` character walk: a run of delimiters ends the
token being accumulated (`acc`, reversed); `strtok` never returns an
empty token, matching the `token && *token` loop guard. -/
def strtokAux : List Char → List Char → List String
  | [], acc => if acc = [] then [] else [⟨acc.reverse⟩]
  | c :: rest, acc =>
      if c = ':' ∨ c = ',' then
        if acc = [] then strtokAux rest []
        else String.mk acc.reverse :: strtokAux rest []
      else strtokAux rest (c :: acc)

/-- The token sequence the `strtok(options, ":,")` loop visits. -/
def strtokTokens (options : String) : List String :=
  strtokAux options.toList []

/-- `strchr(token, '=')` then `*value = 0; value++`: the name is the
part before the first `=`, the value the part after it; `none` when the
token has no `=`. -/
def splitNameValue (token : String) : Option (String × String) :=
  match token.toList.findIdx? (fun c => c = '=') with
  | none => none
  | some i =>
      some (⟨token.toList.take i⟩, ⟨token.toList.drop (i + 1)⟩)

/-- Mutable locals of `create_dns_driver` (lines 187-191). -/
structure DnsOptState where
  domain : Option String
  host   : String
  port   : Nat
  type   : String
  server : Option String
  deriving DecidableEq, Repr

def initDnsOptState (system_dns : Option String) : DnsOptState :=
  { domain := none, host := "0.0.0.0", port := 53,
    type := DEFAULT_TYPES, server := system_dns }

/-- One iteration of the token loop (lines 195-226): dispatch on the
option name, `exit(1)` on a missing `=` or an unknown name. -/
def processToken (st : DnsOptState) (token : String) :
    Except DriverResult DnsOptState :=
  match splitNameValue token with
  | none =>
      Except.error (.fatalExit 1
        "ERROR parsing --dns: it has to be colon-separated name=value pairs!")
  | some (name, value) =>
      if name = "domain" then Except.ok { st with domain := some value }
      else if name = "host" then Except.ok { st with host := value }
      else if name = "port" then Except.ok { st with port := toUint16 (atoi value) }
      else if name = "type" then Except.ok { st with type := value }
      else if name = "server" then Except.ok { st with server := some value }
      else Except.error (.fatalExit 1 ("Unknown --dns option: " ++ name))

def processTokens (st : DnsOptState) : List String → Except DriverResult DnsOptState
  | [] => Except.ok st
  | t :: rest =>
      match processToken st t with
      | Except.error e => Except.error e
      | Except.ok st' => processTokens st' rest

/-- `create_dns_driver_internal` (lines 136-183): fall back to the
system resolver when no server was supplied; with neither, `exit(1)`. -/
def create_dns_driver_internal (system_dns : Option String)
    (domain : Option String) (host : String) (port : Nat)
    (type : String) (server : Option String) : DriverResult :=
  let warned := server = none ∧ domain = none
  let server := match server with
    | none => system_dns
    | some s => some s
  match server with
  | none => .fatalExit 1 "Couldn't determine the system DNS server!"
  | some s => .created (decide warned)
      { domain := domain, host := host, port := port, type := type, server := s }

/-- `create_dns_driver` (lines 185-229): parse the option string, then
delegate to `create_dns_driver_internal`. -/
def create_dns_driver (system_dns : Option String) (options : String) :
    DriverResult :=
  match processTokens (initDnsOptState system_dns) (strtokTokens options) with
  | Except.error e => e
  | Except.ok st =>
      create_dns_driver_internal system_dns st.domain st.host st.port st.type st.server

/-- The option names the dispatch chain at lines 205-214 recognizes. -/
def goodOptName (n : String) : Bool :=
  n = "domain" || n = "host" || n = "port" || n = "type" || n = "server"

/-- A token the loop rejects with `exit(1)`: no `=`, or an unrecognized
name. -/
def badDnsToken (t : String) : Bool :=
  match splitNameValue t with
  | none => true
  | some (n, _) => ! goodOptName n

/-! ## Embedding of `main` (src/client/dnscat.c lines 240-509)

`main` is sequential C with `exit()`; the embedding threads an
execution state through the successive phases, each phase a no-op once
`exited` is set, mirroring the fact that `exit` never returns. -/

/-- One observable side effect of `main` on stdout. -/
inductive OutputEvent where
  /-- the hex dump of `SHA1("password")` (lines 300-307) -/
  | sha1Digest (input : String)
  /-- the hex dump of `pkcs5_pbkdf2(pass, salt, keylen, rounds)`
      (lines 309-312) -/
  | pbkdf2Key (pass : String) (salt : String) (keyLen : Nat) (rounds : Nat)
  /-- the literal expected-vector line (line 313) -/
  | literalLine (s : String)
  deriving DecidableEq, Repr

/-- What a recognized i/o option creates (lines 386-413). -/
inductive SessionKind where
  | console | exec (arg : String) | command | ping
  deriving DecidableEq, Repr

/-- The state `main` threads through its phases: the globals it touches,
its locals that survive across phases, and the observable effects. -/
structure ExecState where
  out              : List OutputEvent
  exited           : Option Nat
  system_dns       : Option String
  optionsParsed    : Bool
  sessions         : List SessionKind
  tunnel_driver    : Option DriverResult
  driverGoCalled   : Bool
  deriving DecidableEq, Repr

def initExecState : ExecState :=
  { out := [], exited := none, system_dns := none, optionsParsed := false,
    sessions := [], tunnel_driver := none, driverGoCalled := false }

/-- The `DELETE ME` debug block (lines 299-314): print the SHA1 digest
of `"password"`, print a PBKDF2-derived key, print the expected test
vector, then `exit(0)`. -/
def stepDebugBlock (s : ExecState) : ExecState :=
  if s.exited.isSome then s else
  { s with
    out := s.out ++
      [ .sha1Digest "password",
        .pbkdf2Key "password" "ATHENA.MIT.EDUraeburn" 16 1,
        .literalLine "cdedb5281bb2f801565a1122b2563515" ],
    exited := some 0 }

/-- Lines 330-340: create the select group, read the system resolver,
seed rand, winsock init, set the log level.  Only the `system_dns`
assignment is visible to later phases. -/
def stepSetup (systemResolver : Option String) (s : ExecState) : ExecState :=
  if s.exited.isSome then s else
  { s with system_dns := systemResolver }

/-- One recognized long option with its `optarg` when it takes one. -/
inductive ParsedOpt where
  | help | version | delay (arg : String) | steady
  | maxRetransmits (arg : String) | retransmitForever
  | console | exec (arg : String) | command | ping
  | listen | dns (arg : String) | d | q | packetTrace
  | unknown
  deriving DecidableEq, Repr

/-- The body of the `getopt_long_only` dispatch (lines 344-466) for one
recognized option. -/
def stepOption (s : ExecState) (o : ParsedOpt) : ExecState :=
  if s.exited.isSome then s else
  match o with
  | .help => { s with exited := some 0 }          -- usage() exits
  | .version => { s with exited := some 0 }
  | .delay _ => s                                  -- session_set_delay
  | .steady => s                                   -- session_set_transmit_immediately(FALSE)
  | .maxRetransmits _ => s                         -- controller_set_max_retransmits(atoi(optarg))
  | .retransmitForever => s                        -- controller_set_max_retransmits(-1)
  | .console => { s with sessions := s.sessions ++ [.console] }
  | .exec a => { s with sessions := s.sessions ++ [.exec a] }
  | .command => { s with sessions := s.sessions ++ [.command] }
  | .ping => { s with sessions := s.sessions ++ [.ping] }
  | .listen => { s with exited := some 1 }         -- "isn't implemented yet"
  | .dns a => { s with tunnel_driver := some (create_dns_driver s.system_dns a) }
  | .d => s | .q => s
  | .packetTrace => s
  | .unknown => { s with exited := some 0 }        -- usage() exits

/-- The option-parsing loop (lines 343-466), over an already-tokenized
option stream; sets the flag observed by the claims once entered with at
least the loop-condition evaluation. -/
def stepParseLoop (opts : List ParsedOpt) (s : ExecState) : ExecState :=
  if s.exited.isSome then s else
  opts.foldl stepOption { s with optionsParsed := true }

/-- Post-parse driver defaulting (lines 468-493) for the case that no
`--dns` option appeared: build the driver from the positional domain. -/
def stepDefaultDriver (positional : Option String) (s : ExecState) : ExecState :=
  if s.exited.isSome then s else
  match s.tunnel_driver with
  | some _ =>
      match positional with
      | some _ => { s with exited := some 1 }      -- --dns plus positional domain
      | none => s
  | none =>
      let drv := create_dns_driver_internal s.system_dns positional "0.0.0.0" 53
        DEFAULT_TYPES none
      { s with tunnel_driver := some drv }

/-- Lines 496-500: default command session when no i/o option ran. -/
def stepDefaultSession (s : ExecState) : ExecState :=
  if s.exited.isSome then s else
  match s.sessions with
  | [] => { s with sessions := [.command] }
  | _ => s

/-- Line 506: `driver_dns_go(tunnel_driver)` — entry to the polling
loop, which never returns. -/
def stepDriverGo (s : ExecState) : ExecState :=
  if s.exited.isSome then s else
  { s with driverGoCalled := true }

/-- The whole of `main`, parameterized by the environment (the system
resolver `dns_get_system` would return) and the command line (already
split by `getopt_long_only` into recognized options and the trailing
positional argument). -/
def dnscatMain (systemResolver : Option String) (opts : List ParsedOpt)
    (positional : Option String) : ExecState :=
  stepDriverGo
    (stepDefaultSession
      (stepDefaultDriver positional
        (stepParseLoop opts
          (stepSetup systemResolver
            (stepDebugBlock initExecState)))))

/-! ## Codec (spec §4.1) — spec-modelled

The codec implementation (`tunnel_drivers/driver_dns.c` and the encoder
library) is not part of the repository snapshot; only its caller is.
The definitions below are modelled from the specification's contract:
hex alphabet (one of the two alphabets §4.1 names), labels of at most 63
octets, full names of at most 253 octets, per-record-type payload
capacity, and an input-size error instead of truncation. -/

/-- The five record types the spec supports as transport. -/
inductive RecordType where
  | TXT | MX | CNAME | A | AAAA
  deriving DecidableEq, Repr

/-- Modelled from the spec: error raised when a payload exceeds the
record type's maximum or the name-length budget ("an input-size error,
not a silent truncation"). -/
inductive CodecError where
  | inputTooLarge
  deriving DecidableEq, Repr

/-- Hex digit for a value below 16 (DNS-name-legal, case-insensitive-safe). -/
def hexDigit (n : Nat) : Char :=
  if n < 10 then Char.ofNat (48 + n) else Char.ofNat (97 + (n - 10))

/-- Numeric value of a hex digit. -/
def hexVal (c : Char) : Nat :=
  if c.toNat ≥ 97 then c.toNat - 97 + 10 else c.toNat - 48

/-- One payload byte becomes two hex characters. -/
def encodeByte (b : Nat) : List Char :=
  [hexDigit (b / 16), hexDigit (b % 16)]

/-- Undo `encodeByte` across a character stream, two characters per byte. -/
def decodePairs : List Char → List Nat
  | c1 :: c2 :: rest => (hexVal c1 * 16 + hexVal c2) :: decodePairs rest
  | _ => []

/-- Split the encoded character stream into DNS labels of at most 63
octets each; `fuel` bounds the recursion and is instantiated with the
stream length, which always suffices. -/
def toLabelsFuel : Nat → List Char → List (List Char)
  | 0, _ => []
  | _ + 1, [] => []
  | fuel + 1, l@(_ :: _) => l.take 63 :: toLabelsFuel fuel (l.drop 63)

def toLabels (l : List Char) : List (List Char) :=
  toLabelsFuel l.length l

/-- Modelled from the spec: the maximum payload (in bytes) each record
type can carry.  Name-bound types are limited by the 253-octet name
budget (125 bytes is the largest count whose 250 hex characters in
63-octet labels, dot-joined, fit in 253 octets); address types carry
fewer usable bytes per answer (an A answer holds 4 octets, an AAAA
answer 16, one octet of which delimits the payload length). -/
def typeCapacity : RecordType → Nat
  | .TXT => 125
  | .MX => 125
  | .CNAME => 125
  | .A => 3
  | .AAAA => 15

/-- Octet length of a dot-joined DNS name made of the given labels. -/
def nameLength (labels : List (List Char)) : Nat :=
  (labels.map List.length).sum + (labels.length - 1)

/-- Modelled from the spec: `encode(payload, recordType) -> queryName`.
Checks the per-record-type maximum and the name-length budget before
building the name; a violation is an input-size error, never a
truncation. -/
def encode (p : List Nat) (t : RecordType) :
    Except CodecError (List (List Char)) :=
  if p.length ≤ typeCapacity t ∧
     nameLength (toLabels (p.flatMap encodeByte)) ≤ 253 then
    Except.ok (toLabels (p.flatMap encodeByte))
  else
    Except.error .inputTooLarge

/-- Modelled from the spec: `decode(recordType, answerData) -> bytes`.
Whatever representation the record type used, the embedded payload is
the hex stream of the name's labels, rejoined and decoded. -/
def decode (_t : RecordType) (labels : List (List Char)) : List Nat :=
  decodePairs labels.flatten

/-! ## Controller retransmission policy (spec §4.4) — spec-modelled

The controller implementation (`controller/controller.c`) is not part
of the repository snapshot; `main` only configures it through
`controller_set_max_retransmits` (lines 376-383), with `-1` as the
retransmit-forever sentinel.  The policy below is modelled from the
spec: the ceiling counts consecutive unacknowledged attempts for the
same outstanding packet; reaching it is fatal unless the ceiling is the
unbounded sentinel. -/

/-- Retransmission bookkeeping of one session, as the spec isolates it:
the counter for the in-flight packet and whether the session has been
torn down fatally. -/
structure RetransmitState where
  tries   : Nat
  isFatal : Bool
  deriving DecidableEq, Repr

def freshRetransmit : RetransmitState := { tries := 0, isFatal := false }

/-- Modelled from the spec: one transmission attempt of the outstanding
packet that receives no reply.  The counter increases; with a finite
ceiling (`maxRetransmits ≥ 0`) reaching the ceiling is fatal, with the
`-1` sentinel the controller retries forever. -/
def attemptNoReply (maxRetransmits : Int) (s : RetransmitState) :
    RetransmitState :=
  if s.isFatal then s
  else
    let t := s.tries + 1
    { tries := t, isFatal := decide (0 ≤ maxRetransmits ∧ maxRetransmits ≤ (t : Int)) }

/-- Modelled from the spec: "Any successful reply resets the counter for
that session's in-flight packet." -/
def replyReceived (s : RetransmitState) : RetransmitState :=
  if s.isFatal then s else { tries := 0, isFatal := false }

/-- `k` consecutive unanswered transmission attempts from a fresh state. -/
def attempts (maxRetransmits : Int) : Nat → RetransmitState
  | 0 => freshRetransmit
  | k + 1 => attemptNoReply maxRetransmits (attempts maxRetransmits k)

/-! ## Session layer (spec §4.3, §3) — spec-modelled

`controller/session.c` is not part of the repository snapshot; `main`
only constructs sessions (lines 386-413).  The state below is modelled
from the spec's Session attributes: send sequence number, expected
receive sequence number, outbound and inbound buffers, and the
authentication state of the encryption context. -/

/-- Modelled from the spec: the per-session state the claims about
sequence numbers and packet acceptance talk about. -/
structure TunnelSession where
  mySeq         : Nat
  theirSeq      : Nat
  outBuffer     : List Nat
  inBuffer      : List Nat
  authenticated : Bool
  key           : Nat
  deriving DecidableEq, Repr

/-- The wire packet fields the session layer inspects on receive. -/
structure InPacket where
  seq  : Nat
  ack  : Nat
  body : List Nat
  tag  : Nat
  deriving DecidableEq, Repr

/-- Modelled from the spec: the authentication tag over a packet body
under the session key (the concrete tag function is unspecified by the
spec; any deterministic keyed function exhibits the contract). -/
def tagOf (key : Nat) (body : List Nat) : Nat :=
  body.foldl (fun acc b => (acc * 31 + b) % 65536) (key % 65536)

def checkTag (s : TunnelSession) (p : InPacket) : Bool :=
  p.tag = tagOf s.key p.body

/-- Modelled from the spec: processing one received MSG packet.  After
authentication is established a failed tag check drops the packet and
leaves the session untouched; otherwise in-order data is appended to the
inbound buffer, the expected receive sequence number advances by the
bytes accepted, and acknowledged bytes leave the outbound buffer. -/
def sessionRecv (s : TunnelSession) (p : InPacket) : TunnelSession :=
  if s.authenticated ∧ ¬ checkTag s p then s
  else if p.seq = s.theirSeq ∧ p.body ≠ [] then
    { s with
      inBuffer := s.inBuffer ++ p.body,
      theirSeq := s.theirSeq + p.body.length,
      outBuffer := s.outBuffer.drop (p.ack - s.mySeq) }
  else
    -- duplicate or out-of-window: discarded idempotently
    { s with outBuffer := s.outBuffer.drop (p.ack - s.mySeq) }

/-- A MSG packet as transmitted: its sequence number and data chunk. -/
structure OutPacket where
  seq  : Nat
  body : List Nat
  deriving DecidableEq, Repr

/-- Modelled from the spec: transmitting one chunk of fresh data stamps
it with the current send sequence number and advances the sequence
number by the chunk's length. -/
def sessionSend (s : TunnelSession) (chunk : List Nat) :
    TunnelSession × OutPacket :=
  ({ s with mySeq := s.mySeq + chunk.length },
   { seq := s.mySeq, body := chunk })

/-- The packets a session emits for a list of fresh data chunks. -/
def sendAll (s : TunnelSession) : List (List Nat) → List OutPacket
  | [] => []
  | c :: cs =>
      let (s', p) := sessionSend s c
      p :: sendAll s' cs

/-! ## PING handling (spec §4.2, §4.4) — spec-modelled

PING packets belong to no session's sequence space; the controller
answers them without consulting the session registry. -/

/-- A controller-level inbound packet, as far as PING routing needs. -/
inductive CtrlPacket where
  | ping (nonce : List Nat)
  | sessionBound (sessionId : Nat) (p : InPacket)
  deriving DecidableEq, Repr

/-- A controller-level reply. -/
inductive CtrlReply where
  | ping (nonce : List Nat)
  deriving DecidableEq, Repr

/-- The controller's session registry: session id to session state. -/
abbrev Registry := List (Nat × TunnelSession)

/-- Modelled from the spec: routing one inbound packet.  A PING is
answered immediately with a PING carrying the identical nonce, without
any session existing or being touched; a session-bound packet is
dispatched to its session when registered and dropped silently
otherwise. -/
def controllerRecv (reg : Registry) (p : CtrlPacket) :
    Registry × Option CtrlReply :=
  match p with
  | .ping nonce => (reg, some (.ping nonce))
  | .sessionBound sid q =>
      match reg.lookup sid with
      | none => (reg, none)        -- stale/spoofed: drop silently
      | some s => ((sid, sessionRecv s q) :: reg.eraseP (fun e => e.1 = sid), none)

/-- Modelled from the spec: the liveness check on a PING reply — the
echoed nonce must exactly match the nonce sent; a mismatch is a failed
check (a Boolean verdict), never a crash. -/
def pingReplyOk (sent : List Nat) (reply : Option CtrlReply) : Bool :=
  match reply with
  | some (.ping got) => got = sent
  | none => false

/-! ## Helper lemmas: codec -/

theorem toLabelsFuel_nil (fuel : Nat) : toLabelsFuel fuel [] = [] := by
  cases fuel <;> rfl

theorem flatten_toLabelsFuel (fuel : Nat) :
    ∀ l : List Char, l.length ≤ fuel → (toLabelsFuel fuel l).flatten = l := by
  induction fuel with
  | zero =>
      intro l hl
      have : l = [] := List.length_eq_zero.mp (Nat.le_zero.mp hl)
      subst this; rfl
  | succ fuel ih =>
      intro l hl
      match l with
      | [] => rfl
      | x :: xs =>
          have hd : ((x :: xs).drop 63).length ≤ fuel := by
            simp only [List.length_drop, List.length_cons] at hl ⊢
            omega
          simp only [toLabelsFuel, List.flatten_cons]
          rw [ih ((x :: xs).drop 63) hd]
          exact List.take_append_drop 63 (x :: xs)

theorem flatten_toLabels (l : List Char) : (toLabels l).flatten = l :=
  flatten_toLabelsFuel l.length l (Nat.le_refl _)

theorem toLabelsFuel_count (fuel : Nat) :
    ∀ l : List Char, l.length ≤ fuel →
      (toLabelsFuel fuel l).length * 63 < l.length + 63 := by
  induction fuel with
  | zero =>
      intro l hl
      have : l = [] := List.length_eq_zero.mp (Nat.le_zero.mp hl)
      subst this; simp [toLabelsFuel]
  | succ fuel ih =>
      intro l hl
      match l with
      | [] => simp [toLabelsFuel]
      | x :: xs =>
          have hd : ((x :: xs).drop 63).length ≤ fuel := by
            simp only [List.length_drop, List.length_cons] at hl ⊢
            omega
          simp only [toLabelsFuel, List.length_cons]
          have h := ih ((x :: xs).drop 63) hd
          simp only [List.length_drop, List.length_cons] at h
          omega

theorem sum_toLabels_lengths (l : List Char) :
    ((toLabels l).map List.length).sum = l.length := by
  have := congrArg List.length (flatten_toLabels l)
  simpa [List.length_flatten] using this

theorem nameLength_toLabels_le (l : List Char) (hl : l.length ≤ 250) :
    nameLength (toLabels l) ≤ 253 := by
  have hsum := sum_toLabels_lengths l
  have hcount := toLabelsFuel_count l.length l (Nat.le_refl _)
  unfold nameLength
  unfold toLabels at hsum ⊢
  omega

theorem length_flatMap_encodeByte (p : List Nat) :
    (p.flatMap encodeByte).length = 2 * p.length := by
  induction p with
  | nil => rfl
  | cons b p ih => simp [encodeByte, ih]; omega

theorem hexVal_hexDigit (n : Nat) (h : n < 16) : hexVal (hexDigit n) = n := by
  interval_cases n <;> rfl

theorem decodePairs_flatMap (p : List Nat) (hb : ∀ b ∈ p, b < 256) :
    decodePairs (p.flatMap encodeByte) = p := by
  induction p with
  | nil => rfl
  | cons b p ih =>
      have hblt : b < 256 := hb b (List.mem_cons_self b p)
      have hdiv : b / 16 < 16 := by omega
      have hmod : b % 16 < 16 := by omega
      rw [List.flatMap_cons]
      simp only [encodeByte, List.cons_append, List.nil_append, decodePairs]
      rw [hexVal_hexDigit _ hdiv, hexVal_hexDigit _ hmod]
      show (b / 16 * 16 + b % 16) :: decodePairs (p.flatMap encodeByte) = b :: p
      rw [ih (fun x hx => hb x (List.mem_cons_of_mem b hx))]
      congr 1
      omega

theorem typeCapacity_le (t : RecordType) : typeCapacity t ≤ 125 := by
  cases t <;> simp [typeCapacity]

/-! ## Helper lemmas: the --dns option parser -/

theorem processTokens_cons_ok {st st' : DnsOptState} {t : String}
    {ts : List String} (h : processToken st t = Except.ok st') :
    processTokens st (t :: ts) = processTokens st' ts := by
  simp [processTokens, h]

theorem processTokens_cons_err {st : DnsOptState} {t : String}
    {e : DriverResult} {ts : List String}
    (h : processToken st t = Except.error e) :
    processTokens st (t :: ts) = Except.error e := by
  simp [processTokens, h]

theorem processToken_bad (st : DnsOptState) (t : String)
    (hbad : badDnsToken t = true) :
    ∃ msg, processToken st t = Except.error (DriverResult.fatalExit 1 msg) := by
  cases hsv : splitNameValue t with
  | none =>
      refine ⟨"ERROR parsing --dns: it has to be colon-separated name=value pairs!", ?_⟩
      unfold processToken
      rw [hsv]
  | some nv =>
      obtain ⟨n, v⟩ := nv
      have hbn : goodOptName n = false := by
        unfold badDnsToken at hbad
        rw [hsv] at hbad
        simpa using hbad
      simp only [goodOptName, Bool.or_eq_false_iff,
        decide_eq_false_iff_not] at hbn
      obtain ⟨⟨⟨⟨h1, h2⟩, h3⟩, h4⟩, h5⟩ := hbn
      refine ⟨"Unknown --dns option: " ++ n, ?_⟩
      unfold processToken
      rw [hsv]
      simp [h1, h2, h3, h4, h5]

theorem processToken_good (st : DnsOptState) (t : String)
    (hgood : badDnsToken t = false) :
    ∃ st', processToken st t = Except.ok st' := by
  cases hsv : splitNameValue t with
  | none =>
      have htrue : badDnsToken t = true := by
        unfold badDnsToken
        rw [hsv]
      rw [htrue] at hgood
      cases hgood
  | some nv =>
      obtain ⟨n, v⟩ := nv
      have hgn : goodOptName n = true := by
        have h := hgood
        unfold badDnsToken at h
        rw [hsv] at h
        simpa using h
      simp only [goodOptName, Bool.or_eq_true_iff, decide_eq_true_eq] at hgn
      rcases hgn with ((((h | h) | h) | h) | h) <;> subst h
      · exact ⟨{ st with domain := some v }, by unfold processToken; rw [hsv]; rfl⟩
      · exact ⟨{ st with host := v }, by unfold processToken; rw [hsv]; rfl⟩
      · exact ⟨{ st with port := toUint16 (atoi v) }, by unfold processToken; rw [hsv]; rfl⟩
      · exact ⟨{ st with type := v }, by unfold processToken; rw [hsv]; rfl⟩
      · exact ⟨{ st with server := some v }, by unfold processToken; rw [hsv]; rfl⟩

theorem processTokens_bad :
    ∀ (ts : List String) (st : DnsOptState),
      (∃ t ∈ ts, badDnsToken t = true) →
      ∃ msg, processTokens st ts = Except.error (DriverResult.fatalExit 1 msg) := by
  intro ts
  induction ts with
  | nil =>
      intro st h
      obtain ⟨t, ht, _⟩ := h
      cases ht
  | cons t ts ih =>
      intro st h
      cases hbad : badDnsToken t with
      | true =>
          obtain ⟨msg, hmsg⟩ := processToken_bad st t hbad
          exact ⟨msg, processTokens_cons_err hmsg⟩
      | false =>
          obtain ⟨st', hst'⟩ := processToken_good st t hbad
          obtain ⟨u, hu, hbu⟩ := h
          have hu' : u ∈ ts := by
            rcases List.mem_cons.mp hu with hut | huts
            · subst hut; rw [hbu] at hbad; cases hbad
            · exact huts
          obtain ⟨msg, hmsg⟩ := ih st' ⟨u, hu', hbu⟩
          exact ⟨msg, (processTokens_cons_ok hst').trans hmsg⟩

theorem processTokens_preserving :
    ∀ (ts : List String) (st : DnsOptState),
      (∀ t ∈ ts, ∃ n v, splitNameValue t = some (n, v) ∧
        (n = "domain" ∨ n = "host" ∨ n = "type")) →
      ∃ st', processTokens st ts = Except.ok st' ∧
        st'.server = st.server ∧ st'.port = st.port := by
  intro ts
  induction ts with
  | nil => intro st _; exact ⟨st, rfl, rfl, rfl⟩
  | cons t ts ih =>
      intro st h
      obtain ⟨n, v, hsv, hn⟩ := h t (List.mem_cons_self t ts)
      have hrest := fun x hx => h x (List.mem_cons_of_mem t hx)
      have hstep : ∃ st₁, processToken st t = Except.ok st₁ ∧
          st₁.server = st.server ∧ st₁.port = st.port := by
        rcases hn with hn | hn | hn <;> subst hn
        · refine ⟨{ st with domain := some v }, ?_, rfl, rfl⟩
          unfold processToken; rw [hsv]; rfl
        · refine ⟨{ st with host := v }, ?_, rfl, rfl⟩
          unfold processToken; rw [hsv]; rfl
        · refine ⟨{ st with type := v }, ?_, rfl, rfl⟩
          unfold processToken; rw [hsv]; rfl
      obtain ⟨st₁, h1, hs1, hp1⟩ := hstep
      obtain ⟨st', h2, hs2, hp2⟩ := ih st₁ hrest
      exact ⟨st', (processTokens_cons_ok h1).trans h2,
        hs2.trans hs1, hp2.trans hp1⟩

theorem internal_with_server (sys domain : Option String) (host : String)
    (port : Nat) (type srv : String) :
    create_dns_driver_internal sys domain host port type (some srv) =
      DriverResult.created (decide (some srv = none ∧ domain = none))
        ⟨domain, host, port, type, srv⟩ := rfl

/-! ## Helper lemmas: retransmission -/

theorem attempts_below_ceiling (N : Nat) :
    ∀ k, k < N → attempts (N : Int) k = ⟨k, false⟩ := by
  intro k
  induction k with
  | zero => intro _; rfl
  | succ k ih =>
      intro hk
      have hik := ih (by omega)
      show attemptNoReply (N : Int) (attempts (N : Int) k) = _
      rw [hik]
      have hred : attemptNoReply (N : Int) ⟨k, false⟩ =
          ⟨k + 1, decide (0 ≤ (N : Int) ∧ (N : Int) ≤ ((k + 1 : Nat) : Int))⟩ := rfl
      rw [hred]
      simp only [RetransmitState.mk.injEq, true_and]
      rw [decide_eq_false_iff_not]
      omega

theorem attempts_unbounded (k : Nat) : attempts (-1) k = ⟨k, false⟩ := by
  induction k with
  | zero => rfl
  | succ k ih =>
      show attemptNoReply (-1) (attempts (-1) k) = _
      rw [ih]
      have hred : attemptNoReply (-1) ⟨k, false⟩ =
          ⟨k + 1, decide ((0 : Int) ≤ -1 ∧ (-1 : Int) ≤ ((k + 1 : Nat) : Int))⟩ := rfl
      rw [hred]
      simp only [RetransmitState.mk.injEq, true_and]
      rw [decide_eq_false_iff_not]
      omega

/-! ## Helper lemmas: session sends -/

theorem sendAll_seq_ge :
    ∀ (chunks : List (List Nat)) (s : TunnelSession),
      ∀ q ∈ sendAll s chunks, s.mySeq ≤ q.seq := by
  intro chunks
  induction chunks with
  | nil => intro s q hq; simp [sendAll] at hq
  | cons c cs ih =>
      intro s q hq
      simp only [sendAll, sessionSend] at hq
      rcases List.mem_cons.mp hq with hq | hq
      · subst hq; exact Nat.le_refl _
      · have h := ih { s with mySeq := s.mySeq + c.length } q hq
        have h' : s.mySeq + c.length ≤ q.seq := h
        omega

/-! ## Claim theorems -/

/-- C1: for every supported record type and every byte payload within
the per-record-type maximum (hence the name-length budget), encoding
succeeds and decoding the encoded name recovers the payload byte for
byte; a payload exceeding the budget makes `encode` fail with the
input-size error rather than truncating.  Determinism holds because
`encode` is a function of its arguments. -/
theorem codec_roundtrip (t : RecordType) (p : List Nat)
    (hb : ∀ b ∈ p, b < 256) :
    (p.length ≤ typeCapacity t →
      ∃ name, encode p t = Except.ok name ∧ decode t name = p) ∧
    (typeCapacity t < p.length →
      encode p t = Except.error CodecError.inputTooLarge) := by
  constructor
  · intro hlen
    have h250 : (p.flatMap encodeByte).length ≤ 250 := by
      rw [length_flatMap_encodeByte]
      have := typeCapacity_le t
      omega
    have hname := nameLength_toLabels_le _ h250
    refine ⟨toLabels (p.flatMap encodeByte), ?_, ?_⟩
    · unfold encode
      rw [if_pos ⟨hlen, hname⟩]
    · unfold decode
      rw [flatten_toLabels]
      exact decodePairs_flatMap p hb
  · intro hgt
    unfold encode
    rw [if_neg (fun h => absurd h.1 (by omega))]

/-- Witness for C1 at the spec §8 scenario payload `[1,2,3,4,5]` and
record type TXT. -/
theorem codec_roundtrip_witness :
    (∀ b ∈ ([1, 2, 3, 4, 5] : List Nat), b < 256) ∧
    ((([1, 2, 3, 4, 5] : List Nat).length ≤ typeCapacity RecordType.TXT →
        ∃ name, encode [1, 2, 3, 4, 5] RecordType.TXT = Except.ok name ∧
          decode RecordType.TXT name = [1, 2, 3, 4, 5]) ∧
      (typeCapacity RecordType.TXT < ([1, 2, 3, 4, 5] : List Nat).length →
        encode [1, 2, 3, 4, 5] RecordType.TXT =
          Except.error CodecError.inputTooLarge)) :=
  ⟨by decide, codec_roundtrip RecordType.TXT [1, 2, 3, 4, 5] (by decide)⟩

/-- C2: for every argument vector (and every system-resolver
environment), `main` prints the SHA1 digest of `"password"` and a
PBKDF2-derived key and then exits with status `0` before any option is
parsed, any driver or session is created, or `driver_dns_go` is
reached. -/
theorem main_debug_block_exits_first (systemResolver : Option String)
    (opts : List ParsedOpt) (positional : Option String) :
    dnscatMain systemResolver opts positional =
      { out := [OutputEvent.sha1Digest "password",
                OutputEvent.pbkdf2Key "password" "ATHENA.MIT.EDUraeburn" 16 1,
                OutputEvent.literalLine "cdedb5281bb2f801565a1122b2563515"],
        exited := some 0,
        system_dns := none,
        optionsParsed := false,
        sessions := [],
        tunnel_driver := none,
        driverGoCalled := false } := rfl

/-- C3: with a finite retransmit ceiling `N > 0` and a transport that
never answers, the session becomes fatal after exactly `N` unanswered
attempts of the same outstanding packet: fatal at attempt `N`, not
fatal at every earlier count. -/
theorem retransmit_ceiling_exact (N : Nat) (hN : 0 < N) :
    (attempts (N : Int) N).isFatal = true ∧
    ∀ k, k < N → (attempts (N : Int) k).isFatal = false := by
  constructor
  · obtain ⟨m, rfl⟩ : ∃ m, N = m + 1 := ⟨N - 1, by omega⟩
    show (attemptNoReply ((m + 1 : Nat) : Int) (attempts ((m + 1 : Nat) : Int) m)).isFatal = true
    rw [attempts_below_ceiling (m + 1) m (by omega)]
    have hred : attemptNoReply ((m + 1 : Nat) : Int) ⟨m, false⟩ =
        ⟨m + 1, decide (0 ≤ ((m + 1 : Nat) : Int) ∧
          ((m + 1 : Nat) : Int) ≤ ((m + 1 : Nat) : Int))⟩ := rfl
    rw [hred]
    show decide _ = true
    rw [decide_eq_true_eq]
    constructor <;> omega
  · intro k hk
    rw [attempts_below_ceiling N k hk]

/-- Witness for C3 at the default ceiling `N = 10`. -/
theorem retransmit_ceiling_exact_witness :
    0 < 10 ∧
    ((attempts ((10 : Nat) : Int) 10).isFatal = true ∧
      ∀ k, k < 10 → (attempts ((10 : Nat) : Int) k).isFatal = false) :=
  ⟨by decide, retransmit_ceiling_exact 10 (by decide)⟩

/-- C4: when no upstream server is supplied and the system resolver is
undeterminable, `create_dns_driver_internal` exits fatally with status 1
(no DNS driver is created and no tunnel started). -/
theorem no_resolver_fatal (domain : Option String) (host : String)
    (port : Nat) (type : String) :
    create_dns_driver_internal none domain host port type none =
      DriverResult.fatalExit 1 "Couldn't determine the system DNS server!" := rfl

/-- C5: when the `--dns` options name no `server` and no `port` (every
token is a recognized `domain`/`host`/`type` pair), the driver is
created with the system resolver as upstream server and port 53. -/
theorem dns_driver_defaults (srv : String) (options : String)
    (h : ∀ t ∈ strtokTokens options, ∃ n v, splitNameValue t = some (n, v) ∧
      (n = "domain" ∨ n = "host" ∨ n = "type")) :
    ∃ w args, create_dns_driver (some srv) options =
      DriverResult.created w args ∧ args.server = srv ∧ args.port = 53 := by
  obtain ⟨st', hok, hs, hp⟩ :=
    processTokens_preserving (strtokTokens options) (initDnsOptState (some srv)) h
  have h1 : create_dns_driver (some srv) options =
      create_dns_driver_internal (some srv) st'.domain st'.host st'.port
        st'.type st'.server := by
    unfold create_dns_driver
    rw [hok]
  have hs' : st'.server = some srv := hs
  have hp' : st'.port = 53 := hp
  rw [hs'] at h1
  rw [internal_with_server] at h1
  exact ⟨_, _, h1, rfl, hp'⟩

/-- Witness for C5: no options at all, system resolver `8.8.8.8`. -/
theorem dns_driver_defaults_witness :
    (∀ t ∈ strtokTokens "", ∃ n v, splitNameValue t = some (n, v) ∧
      (n = "domain" ∨ n = "host" ∨ n = "type")) ∧
    (∃ w args, create_dns_driver (some "8.8.8.8") "" =
      DriverResult.created w args ∧ args.server = "8.8.8.8" ∧ args.port = 53) := by
  have h : ∀ t ∈ strtokTokens "", ∃ n v, splitNameValue t = some (n, v) ∧
      (n = "domain" ∨ n = "host" ∨ n = "type") := by
    intro t ht
    rw [show strtokTokens "" = [] from rfl] at ht
    exact absurd ht (List.not_mem_nil t)
  exact ⟨h, dns_driver_defaults "8.8.8.8" "" h⟩

/-- C6: with the `-1` retransmit-forever sentinel, no number of
unanswered attempts ever makes the session fatal. -/
theorem retransmit_forever_not_fatal (k : Nat) :
    (attempts (-1) k).isFatal = false := by
  rw [attempts_unbounded k]

/-- C7: once a session is authenticated, a received packet whose
authentication tag fails verification is dropped and the session state
(sequence numbers and buffers) is exactly what it was before. -/
theorem auth_fail_leaves_state (s : TunnelSession) (p : InPacket)
    (hauth : s.authenticated = true) (htag : checkTag s p = false) :
    sessionRecv s p = s := by
  unfold sessionRecv
  rw [if_pos ⟨hauth, by simp [htag]⟩]

/-- Witness for C7: an authenticated session and a packet carrying a
wrong tag. -/
theorem auth_fail_leaves_state_witness :
    (TunnelSession.mk 0 0 [] [] true 5).authenticated = true ∧
    checkTag (TunnelSession.mk 0 0 [] [] true 5) (InPacket.mk 0 0 [1] 999) = false ∧
    sessionRecv (TunnelSession.mk 0 0 [] [] true 5) (InPacket.mk 0 0 [1] 999) =
      TunnelSession.mk 0 0 [] [] true 5 :=
  ⟨rfl, by decide, auth_fail_leaves_state _ _ rfl (by decide)⟩

/-- C8: the sequence numbers stamped on the successive packets a session
transmits (each carrying at least one byte) are pairwise strictly
increasing in transmission order: they strictly increase and none is
ever reused.  Either endpoint's sending direction instantiates this. -/
theorem seq_strictly_increasing (s : TunnelSession) (chunks : List (List Nat))
    (h : ∀ c ∈ chunks, c ≠ []) :
    ((sendAll s chunks).map OutPacket.seq).Pairwise (· < ·) := by
  induction chunks generalizing s with
  | nil => simp [sendAll]
  | cons c cs ih =>
      have hc : c ≠ [] := h c (List.mem_cons_self c cs)
      have hlen : 0 < c.length := List.length_pos.mpr hc
      show (OutPacket.seq { seq := s.mySeq, body := c } ::
        (sendAll { s with mySeq := s.mySeq + c.length } cs).map OutPacket.seq).Pairwise (· < ·)
      refine List.Pairwise.cons ?_ (ih _ (fun x hx => h x (List.mem_cons_of_mem c hx)))
      intro x hx
      rcases List.mem_map.mp hx with ⟨q, hq, rfl⟩
      have hge := sendAll_seq_ge cs { s with mySeq := s.mySeq + c.length } q hq
      have hge' : s.mySeq + c.length ≤ q.seq := hge
      show s.mySeq < q.seq
      omega

/-- Witness for C8: two nonempty chunks sent from sequence number 100. -/
theorem seq_strictly_increasing_witness :
    (∀ c ∈ ([[1, 2], [3]] : List (List Nat)), c ≠ []) ∧
    ((sendAll (TunnelSession.mk 100 0 [] [] false 0) [[1, 2], [3]]).map
      OutPacket.seq).Pairwise (· < ·) :=
  ⟨by decide, seq_strictly_increasing (TunnelSession.mk 100 0 [] [] false 0)
    [[1, 2], [3]] (by decide)⟩

/-- C9: a received PING is answered with a PING carrying the identical
nonce, without any session existing or the registry changing; the
liveness check on the reply succeeds exactly when the echoed nonce
matches, and a missing reply is a failed check — a Boolean verdict,
never a crash. -/
theorem ping_echo (reg : Registry) (nonce : List Nat) :
    controllerRecv reg (CtrlPacket.ping nonce) = (reg, some (CtrlReply.ping nonce)) ∧
    pingReplyOk nonce (controllerRecv reg (CtrlPacket.ping nonce)).2 = true ∧
    (∀ got, pingReplyOk nonce (some (CtrlReply.ping got)) = true ↔ got = nonce) ∧
    pingReplyOk nonce none = false := by
  refine ⟨rfl, ?_, ?_, rfl⟩
  · simp [controllerRecv, pingReplyOk]
  · intro got
    simp [pingReplyOk]

/-- C10: an option token without `=`, or with a name other than the five
recognized ones, makes `create_dns_driver` exit fatally with status 1;
no driver is created. -/
theorem dns_opts_reject (sys : Option String) (options : String)
    (h : ∃ t ∈ strtokTokens options, badDnsToken t = true) :
    ∃ msg, create_dns_driver sys options = DriverResult.fatalExit 1 msg := by
  obtain ⟨msg, hm⟩ :=
    processTokens_bad (strtokTokens options) (initDnsOptState sys) h
  refine ⟨msg, ?_⟩
  unfold create_dns_driver
  rw [hm]

/-- Witness for C10: the token `bogus` has no `=`. -/
theorem dns_opts_reject_witness :
    (∃ t ∈ strtokTokens "bogus", badDnsToken t = true) ∧
    (∃ msg, create_dns_driver none "bogus" = DriverResult.fatalExit 1 msg) := by
  have h : ∃ t ∈ strtokTokens "bogus", badDnsToken t = true := by
    refine ⟨"bogus", ?_, ?_⟩
    · rw [show strtokTokens "bogus" = ["bogus"] from rfl]
      exact List.mem_singleton.mpr rfl
    · rfl
  exact ⟨h, dns_opts_reject none "bogus" h⟩

end Dnscat
